import Mathlib

/-!
Verification of the FillFlow core: coordinate conversion, PDF text
extraction and grouping, text wrapping, font matching, template import
validation, and the PDF generation loop.  All numeric values are modelled
as rationals (JS numbers are IEEE doubles; every computation checked here
is exact at the modelled inputs).
-/

/-- JS `Math.abs`. -/
def jsAbs (q : ℚ) : ℚ := if q < 0 then -q else q

/-- Dimensions record (`PDFDimensions` in `src/types/index.ts`). -/
structure PDFDimensions where
  width : ℚ
  height : ℚ
deriving DecidableEq

/-- The three coordinate systems (`CoordinateSystem` in `src/types/index.ts`). -/
inductive CoordinateSystem where
  | pdf
  | canvas
  | screen
deriving DecidableEq

/-- State of a `CoordinateConverter` (`src/utils/coordinateConverter.ts`):
pdf dimensions, canvas dimensions, zoom scale and dpi. -/
structure CoordinateConverter where
  pdfDimensions : PDFDimensions
  canvasDimensions : PDFDimensions
  scale : ℚ
  dpi : ℚ
deriving DecidableEq

namespace CoordinateConverter

/-- `pdfToCanvas` (coordinateConverter.ts lines 37-45). -/
def pdfToCanvas (c : CoordinateConverter) (x y : ℚ) : ℚ × ℚ :=
  let scaleX := c.canvasDimensions.width / c.pdfDimensions.width
  let scaleY := c.canvasDimensions.height / c.pdfDimensions.height
  (x * scaleX, c.canvasDimensions.height - y * scaleY)

/-- `canvasToPdf` (coordinateConverter.ts lines 50-58). -/
def canvasToPdf (c : CoordinateConverter) (x y : ℚ) : ℚ × ℚ :=
  let scaleX := c.pdfDimensions.width / c.canvasDimensions.width
  let scaleY := c.pdfDimensions.height / c.canvasDimensions.height
  (x * scaleX, (c.canvasDimensions.height - y) * scaleY)

/-- `canvasToScreen` (coordinateConverter.ts lines 63-68). -/
def canvasToScreen (c : CoordinateConverter) (x y : ℚ) : ℚ × ℚ :=
  (x * c.scale, y * c.scale)

/-- `screenToCanvas` (coordinateConverter.ts lines 73-78). -/
def screenToCanvas (c : CoordinateConverter) (x y : ℚ) : ℚ × ℚ :=
  (x / c.scale, y / c.scale)

/-- `pdfToScreen` (coordinateConverter.ts lines 83-86). -/
def pdfToScreen (c : CoordinateConverter) (x y : ℚ) : ℚ × ℚ :=
  let cv := c.pdfToCanvas x y
  c.canvasToScreen cv.1 cv.2

/-- `screenToPdf` (coordinateConverter.ts lines 91-94). -/
def screenToPdf (c : CoordinateConverter) (x y : ℚ) : ℚ × ℚ :=
  let cv := c.screenToCanvas x y
  c.canvasToPdf cv.1 cv.2

/-- Generic `convert` (coordinateConverter.ts lines 99-132); `src`/`dst`
are the source's `from`/`to` parameters (`from` is a Lean keyword). -/
def convert (c : CoordinateConverter) (x y : ℚ)
    (src dst : CoordinateSystem) : ℚ × ℚ :=
  if src = dst then (x, y)
  else
    let canvasCoords : ℚ × ℚ :=
      match src with
      | .pdf => c.pdfToCanvas x y
      | .screen => c.screenToCanvas x y
      | _ => (x, y)
    match dst with
    | .pdf => c.canvasToPdf canvasCoords.1 canvasCoords.2
    | .screen => c.canvasToScreen canvasCoords.1 canvasCoords.2
    | _ => canvasCoords

/-- `pointsToPixels` (coordinateConverter.ts lines 137-139). -/
def pointsToPixels (c : CoordinateConverter) (points : ℚ) : ℚ :=
  points * c.dpi / 72

/-- `pixelsToPoints` (coordinateConverter.ts lines 144-146). -/
def pixelsToPoints (c : CoordinateConverter) (pixels : ℚ) : ℚ :=
  pixels * 72 / c.dpi

end CoordinateConverter

/-- C3 — Round-trip: `canvasToPdf (pdfToCanvas (x, y))` returns `(x, y)`
exactly (hence within the claimed `1e-6`) for every in-bounds point and
every non-degenerate pair of dimensions, independent of the zoom factor
(the converter's `scale` is arbitrary and unused by the two maps). -/
theorem canvasToPdf_pdfToCanvas_roundtrip (c : CoordinateConverter) (x y : ℚ)
    (hpw : 0 < c.pdfDimensions.width) (hph : 0 < c.pdfDimensions.height)
    (hcw : 0 < c.canvasDimensions.width) (hch : 0 < c.canvasDimensions.height)
    (hx0 : 0 ≤ x) (hx1 : x ≤ c.pdfDimensions.width)
    (hy0 : 0 ≤ y) (hy1 : y ≤ c.pdfDimensions.height) :
    jsAbs ((c.canvasToPdf (c.pdfToCanvas x y).1 (c.pdfToCanvas x y).2).1 - x)
        ≤ 1 / 1000000 ∧
    jsAbs ((c.canvasToPdf (c.pdfToCanvas x y).1 (c.pdfToCanvas x y).2).2 - y)
        ≤ 1 / 1000000 := by
  have hx : (c.canvasToPdf (c.pdfToCanvas x y).1 (c.pdfToCanvas x y).2).1 = x := by
    simp only [CoordinateConverter.pdfToCanvas, CoordinateConverter.canvasToPdf]
    field_simp
  have hy : (c.canvasToPdf (c.pdfToCanvas x y).1 (c.pdfToCanvas x y).2).2 = y := by
    simp only [CoordinateConverter.pdfToCanvas, CoordinateConverter.canvasToPdf]
    field_simp
  rw [hx, hy]
  simp [jsAbs]

/-- Witness for C3 at a concrete converter (612×792 page, 800×600 canvas,
zoom 2) and the point (10, 20). -/
theorem canvasToPdf_pdfToCanvas_roundtrip_witness :
    (0:ℚ) < 612 ∧
    jsAbs (((⟨⟨612, 792⟩, ⟨800, 600⟩, 2, 72⟩ : CoordinateConverter).canvasToPdf
        ((⟨⟨612, 792⟩, ⟨800, 600⟩, 2, 72⟩ : CoordinateConverter).pdfToCanvas 10 20).1
        ((⟨⟨612, 792⟩, ⟨800, 600⟩, 2, 72⟩ : CoordinateConverter).pdfToCanvas 10 20).2).1 - 10)
      ≤ 1 / 1000000 :=
  ⟨by norm_num,
    (canvasToPdf_pdfToCanvas_roundtrip ⟨⟨612, 792⟩, ⟨800, 600⟩, 2, 72⟩ 10 20
      (by norm_num) (by norm_num) (by norm_num) (by norm_num)
      (by norm_num) (by norm_num) (by norm_num) (by norm_num)).1⟩

/-- C10 — the generic `convert` agrees with the dedicated conversions:
identity when source and target systems coincide, and pdf↔screen
conversions route through canvas, coinciding with `pdfToScreen` and
`screenToPdf`. -/
theorem convert_agrees_with_dedicated (c : CoordinateConverter) (x y : ℚ) :
    (∀ s : CoordinateSystem, c.convert x y s s = (x, y)) ∧
    c.convert x y .pdf .screen = c.pdfToScreen x y ∧
    c.convert x y .screen .pdf = c.screenToPdf x y := by
  refine ⟨fun s => by simp [CoordinateConverter.convert], ?_, ?_⟩
  · simp [CoordinateConverter.convert, CoordinateConverter.pdfToScreen]
  · simp [CoordinateConverter.convert, CoordinateConverter.screenToPdf]

/-! ## PDF text extraction (`src/utils/pdfParser.ts`) -/

/-- The 2D affine transform `[a, b, c, d, e, f]` attached to a PDF.js text
item (indices 0-5 of `item.transform`). -/
structure Transform where
  a : ℚ
  b : ℚ
  c : ℚ
  d : ℚ
  e : ℚ
  f : ℚ
deriving DecidableEq

/-- One item of `textContent.items` as consumed by
`extractTextWithPositions`: its string, transform and reported metrics. -/
structure TextItem where
  str : String
  transform : Transform
  width : ℚ
  height : ℚ
  fontName : String
deriving DecidableEq

/-- `ExtractedFieldData` (`src/types/index.ts` lines 139-147). -/
structure ExtractedFieldData where
  text : String
  x : ℚ
  y : ℚ
  width : ℚ
  height : ℚ
  fontName : String
  fontSize : ℚ
deriving DecidableEq

/-- JS whitespace test used by `String.prototype.trim`. -/
def isWsp (c : Char) : Bool := c = ' ' ∨ c = '\t' ∨ c = '\n' ∨ c = '\r'

/-- JS `String.prototype.trim`: strip leading and trailing whitespace. -/
def jsTrim (s : String) : String :=
  String.mk (((s.data.dropWhile isWsp).reverse.dropWhile isWsp).reverse)

/-- The record pushed by `extractTextWithPositions` for one text item
(pdfParser.ts lines 63-83): `x = transform[4]`,
`y = viewport.height - transform[5]`, `fontSize = |transform[3]|`,
`fontName` defaulted to `"Unknown"` when falsy. -/
def itemToField (viewportHeight : ℚ) (it : TextItem) : ExtractedFieldData :=
  { text := it.str
    x := it.transform.e
    y := viewportHeight - it.transform.f
    width := it.width
    height := it.height
    fontName := if it.fontName ≠ "" then it.fontName else "Unknown"
    fontSize := jsAbs it.transform.d }

/-- Body of the `forEach` in `extractTextWithPositions`: push a record
when the item's string does not trim to empty (`'str' in item` holds for
every modelled item). -/
def extractStep (viewportHeight : ℚ) (acc : List ExtractedFieldData)
    (it : TextItem) : List ExtractedFieldData :=
  if jsTrim it.str ≠ "" then acc ++ [itemToField viewportHeight it] else acc

/-- `extractTextWithPositions` (pdfParser.ts lines 52-91): iterate the
page's text items in order, skipping items whose string trims to empty,
and push one `ExtractedFieldData` per remaining item. -/
def extractTextWithPositions (viewportHeight : ℚ)
    (items : List TextItem) : List ExtractedFieldData :=
  items.foldl (extractStep viewportHeight) []

theorem extractText_foldl_eq (viewportHeight : ℚ) (items : List TextItem)
    (acc : List ExtractedFieldData) :
    items.foldl (extractStep viewportHeight) acc
      = acc ++ (items.filter (fun it => jsTrim it.str ≠ "")).map
          (itemToField viewportHeight) := by
  induction items generalizing acc with
  | nil => simp
  | cons it rest ih =>
    rw [List.foldl_cons, List.filter_cons]
    by_cases h : jsTrim it.str = ""
    · have hstep : extractStep viewportHeight acc it = acc := by
        simp [extractStep, h]
      rw [hstep, ih]
      simp [h]
    · have hstep : extractStep viewportHeight acc it
          = acc ++ [itemToField viewportHeight it] := by
        simp [extractStep, h]
      rw [hstep, ih]
      simp [h]

/-- JS `Array.prototype.join(' ')` (and the spec's "joining with single
spaces"): concatenate with a single space between consecutive elements. -/
def joinSp : List String → String
  | [] => ""
  | [l] => l
  | l :: v :: vs => l ++ " " ++ joinSp (v :: vs)

/-- JS `Math.min(...list)`; the empty case (JS `Infinity`) is never
reached, the callers pass nonempty lists. -/
def mathMin : List ℚ → ℚ
  | [] => 0
  | x :: xs => xs.foldl min x

/-- JS `Math.max(...list)`; the empty case (JS `-Infinity`) is never
reached, the callers pass nonempty lists. -/
def mathMax : List ℚ → ℚ
  | [] => 0
  | x :: xs => xs.foldl max x

/-- The merge step of `groupNearbyText` (pdfParser.ts lines 156-173):
text = group texts joined with a single space (group order), x = min x,
width = max(x+width) − min x, y = average y, height/fontName/fontSize
taken from `item`, the first run of the group. -/
def mergeRun (group : List ExtractedFieldData)
    (item : ExtractedFieldData) : ExtractedFieldData :=
  { text := joinSp (group.map (·.text))
    x := mathMin (group.map (·.x))
    y := ((group.map (·.y)).foldl (· + ·) 0) / (group.length : ℚ)
    width := mathMax (group.map (fun r => r.x + r.width))
      - mathMin (group.map (·.x))
    height := item.height
    fontName := item.fontName
    fontSize := item.fontSize }

/-- The `yDiff <= maxDistance` test of `groupNearbyText` against the
group seed's y (`currentY` is assigned once and never reassigned). -/
def nearSeed (maxDistance seedY : ℚ) (r : ExtractedFieldData) : Bool :=
  jsAbs (r.y - seedY) ≤ maxDistance

/-- `groupNearbyText` (pdfParser.ts lines 130-177), with the mutable
`processed` index set replaced by filtering: the first unprocessed run
seeds a group, every later unprocessed run whose y differs from the
seed's y by at most `maxDistance` joins it and is marked processed, and
the loop continues on the remaining runs. `fuel` bounds the recursion;
callers pass the list length, which always suffices. -/
def groupLoop (maxDistance : ℚ) :
    Nat → List ExtractedFieldData → List ExtractedFieldData
  | _, [] => []
  | 0, _ :: _ => []
  | fuel + 1, item :: rest =>
      let group := item :: rest.filter (nearSeed maxDistance item.y)
      mergeRun group item :: groupLoop maxDistance fuel
        (rest.filter (fun r => ! nearSeed maxDistance item.y r))

/-- `groupNearbyText` entry point (default `maxDistance` is 5 at the
source call sites). -/
def groupNearbyText (extractedData : List ExtractedFieldData)
    (maxDistance : ℚ) : List ExtractedFieldData :=
  groupLoop maxDistance extractedData.length extractedData

theorem groupLoop_structure (tol : ℚ) :
    ∀ (fuel : Nat) (runs : List ExtractedFieldData), runs.length ≤ fuel →
    ∀ g ∈ groupLoop tol fuel runs,
      ∃ seed others, (seed :: others).Sublist runs ∧
        (∀ r ∈ others, jsAbs (r.y - seed.y) ≤ tol) ∧
        g = mergeRun (seed :: others) seed := by
  intro fuel
  induction fuel with
  | zero =>
    intro runs hlen g hg
    cases runs with
    | nil => simp [groupLoop] at hg
    | cons a l => simp at hlen
  | succ fuel ih =>
    intro runs hlen g hg
    cases runs with
    | nil => simp [groupLoop] at hg
    | cons item rest =>
      rw [groupLoop, List.mem_cons] at hg
      rcases hg with hg | hg
      · refine ⟨item, rest.filter (nearSeed tol item.y), ?_, ?_, hg⟩
        · exact List.Sublist.cons₂ item (List.filter_sublist rest)
        · intro r hr
          have := List.of_mem_filter hr
          simpa [nearSeed] using this
      · have hlen' : (rest.filter
            (fun r => ! nearSeed tol item.y r)).length ≤ fuel := by
          have h1 := List.length_filter_le
            (fun r => ! nearSeed tol item.y r) rest
          have h2 : rest.length ≤ fuel := by
            simpa using Nat.le_of_succ_le_succ hlen
          exact Nat.le_trans h1 h2
        obtain ⟨seed, others, hsub, hnear, hmerge⟩ := ih _ hlen' g hg
        refine ⟨seed, others, ?_, hnear, hmerge⟩
        exact hsub.trans ((List.filter_sublist rest).cons item)

/-- C4 (corrected) — counterexample to the claim as stated: for the runs
`"Doe, John"` at (120, 700, height 10) followed by `"Full Name"` at
(40, 702, height 20) with tolerance 5, the code merges them keeping the
input order and the first run's height, producing text
`"Doe, John Full Name"` with height 10, not the claimed left-to-right
text `"Full Name Doe, John"` with max height 20. -/
theorem groupNearbyText_not_sorted_by_x :
    (groupNearbyText
        [⟨"Doe, John", 120, 700, 50, 10, "F", 12⟩,
         ⟨"Full Name", 40, 702, 40, 20, "F", 12⟩] 5).map
      (fun g => (g.text, g.height))
      = [("Doe, John Full Name", (10 : ℚ))] ∧
    ¬ (("Doe, John Full Name", (10 : ℚ)) = ("Full Name Doe, John", (20 : ℚ))) := by
  constructor
  · have hd : nearSeed 5
        (ExtractedFieldData.mk "Doe, John" 120 700 50 10 "F" 12).y
        ⟨"Full Name", 40, 702, 40, 20, "F", 12⟩ = true := by
      norm_num [nearSeed, jsAbs]
    simp only [groupNearbyText, List.length, groupLoop, List.filter_cons,
      List.filter_nil, hd, Bool.not_true, if_true, if_false, List.map_cons,
      List.map_nil]
    rfl
  · intro h
    have := congrArg Prod.fst h
    simp at this

/-- C4 (amended) — every merged line produced by `groupNearbyText` comes
from a subsequence `seed :: others` of the input (in input order, not
sorted by x) where each other run's y is within `tol` of the seed's y;
its text joins the group's texts in that input order with single
spaces, its bounding box is `(min x, max(x+width) − min x, avg y)`, and
its height is the FIRST run's height, not the group maximum. -/
theorem groupNearbyText_structure (tol : ℚ)
    (runs : List ExtractedFieldData) (g : ExtractedFieldData)
    (hg : g ∈ groupNearbyText runs tol) :
    ∃ seed others, (seed :: others).Sublist runs ∧
      (∀ r ∈ others, jsAbs (r.y - seed.y) ≤ tol) ∧
      g = mergeRun (seed :: others) seed ∧
      g.text = joinSp ((seed :: others).map (·.text)) ∧
      g.height = seed.height ∧
      g.x = mathMin ((seed :: others).map (·.x)) ∧
      g.width = mathMax ((seed :: others).map (fun r => r.x + r.width))
        - mathMin ((seed :: others).map (·.x)) ∧
      g.y = (((seed :: others).map (·.y)).foldl (· + ·) 0)
        / (((seed :: others).length : ℕ) : ℚ) := by
  obtain ⟨seed, others, hsub, hnear, hmerge⟩ :=
    groupLoop_structure tol runs.length runs (Nat.le_refl _) g hg
  exact ⟨seed, others, hsub, hnear, hmerge,
    by rw [hmerge]; rfl, by rw [hmerge]; rfl, by rw [hmerge]; rfl,
    by rw [hmerge]; rfl, by rw [hmerge]; rfl⟩

/-- Witness for C4's amended theorem at the Scenario-A-style input. -/
theorem groupNearbyText_structure_witness :
    ∃ seed others,
      (seed :: others).Sublist
        [⟨"Doe, John", 120, 700, 50, 10, "F", 12⟩,
         ⟨"Full Name", 40, 702, 40, 20, "F", 12⟩] ∧
      (∀ r ∈ others, jsAbs (r.y - seed.y) ≤ 5) ∧
      (⟨"Doe, John Full Name", 40, 701, 130, 10, "F", 12⟩ : ExtractedFieldData)
        = mergeRun (seed :: others) seed ∧
      (⟨"Doe, John Full Name", 40, 701, 130, 10, "F", 12⟩ :
          ExtractedFieldData).text = joinSp ((seed :: others).map (·.text)) ∧
      (⟨"Doe, John Full Name", 40, 701, 130, 10, "F", 12⟩ :
          ExtractedFieldData).height = seed.height ∧
      (⟨"Doe, John Full Name", 40, 701, 130, 10, "F", 12⟩ :
          ExtractedFieldData).x = mathMin ((seed :: others).map (·.x)) ∧
      (⟨"Doe, John Full Name", 40, 701, 130, 10, "F", 12⟩ :
          ExtractedFieldData).width
        = mathMax ((seed :: others).map (fun r => r.x + r.width))
          - mathMin ((seed :: others).map (·.x)) ∧
      (⟨"Doe, John Full Name", 40, 701, 130, 10, "F", 12⟩ :
          ExtractedFieldData).y
        = (((seed :: others).map (·.y)).foldl (· + ·) 0)
          / (((seed :: others).length : ℕ) : ℚ) :=
  groupNearbyText_structure 5
    [⟨"Doe, John", 120, 700, 50, 10, "F", 12⟩,
     ⟨"Full Name", 40, 702, 40, 20, "F", 12⟩]
    ⟨"Doe, John Full Name", 40, 701, 130, 10, "F", 12⟩
    (by
      have hd : nearSeed 5
          (ExtractedFieldData.mk "Doe, John" 120 700 50 10 "F" 12).y
          ⟨"Full Name", 40, 702, 40, 20, "F", 12⟩ = true := by
        norm_num [nearSeed, jsAbs]
      simp only [groupNearbyText, List.length, groupLoop, List.filter_cons,
        List.filter_nil, hd, Bool.not_true, if_true, if_false, List.mem_cons,
        List.not_mem_nil, or_false]
      simp only [mergeRun, joinSp, mathMin, mathMax, List.map_cons,
        List.map_nil, List.foldl_cons, List.foldl_nil, List.length_cons,
        List.length_nil, ExtractedFieldData.mk.injEq]
      norm_num [min_def, max_def]
      rfl)

/-- C2 (corrected) — counterexample to the claim as stated: for the text
item drawn with transform `[1,0,0,1,10,30]` on a page of height 100, the
claim predicts the emitted position `(e, f) = (10, 30)` in Source space;
the code emits `y = height - f = 70` (top-left-origin canvas space). -/
theorem extractText_not_source_space :
    (extractTextWithPositions 100 [⟨"hi", ⟨1, 0, 0, 1, 10, 30⟩, 20, 10, "F"⟩]).map
        (fun r => (r.x, r.y))
      = [((10 : ℚ), (70 : ℚ))] ∧ (70 : ℚ) ≠ 30 := by
  have ht : jsTrim "hi" = "hi" := rfl
  constructor
  · simp only [extractTextWithPositions, List.foldl, extractStep, ht]
    rw [if_pos (by decide)]
    simp only [itemToField, List.nil_append, List.map_cons, List.map_nil]
    norm_num
  · norm_num

/-- C2 (amended) — the extractor emits, in extraction order, one run per
text item with non-whitespace text; the run's position is `(e, H − f)`
(converted to top-left-origin canvas space, not Source space) and its
font size is `|d|`; width/height are the item's reported metrics. -/
theorem extractText_canvas_space (viewportHeight : ℚ) (items : List TextItem) :
    extractTextWithPositions viewportHeight items
      = (items.filter (fun it => jsTrim it.str ≠ "")).map
          (itemToField viewportHeight) ∧
    ∀ it : TextItem,
      (itemToField viewportHeight it).x = it.transform.e ∧
      (itemToField viewportHeight it).y = viewportHeight - it.transform.f ∧
      (itemToField viewportHeight it).fontSize = jsAbs it.transform.d ∧
      (itemToField viewportHeight it).text = it.str ∧
      (itemToField viewportHeight it).width = it.width ∧
      (itemToField viewportHeight it).height = it.height := by
  constructor
  · exact extractText_foldl_eq viewportHeight items []
  · intro it
    exact ⟨rfl, rfl, rfl, rfl, rfl, rfl⟩

/-! ## Text measurement and wrapping (`wrapText` in the font-loader
utility, `src/unnamed/part_002` lines 221-255) -/

/-- JS `String.prototype.split(' ')` at the character level: split on
every single space, keeping empty segments (so `"" ↦ [[]]`,
`"a  b" ↦ [[a],[],[b]]`), exactly as `text.split(' ')` does. -/
def splitCh : List Char → List (List Char)
  | [] => [[]]
  | c :: cs =>
      if c = ' ' then [] :: splitCh cs
      else
        match splitCh cs with
        | [] => [[c]]
        | w :: ws => (c :: w) :: ws

/-- JS `text.split(' ')`. -/
def jsSplitSpace (s : String) : List String := (splitCh s.data).map String.mk

/-- Inverse of `splitCh`: join char-lists with single spaces. -/
def joinCh : List (List Char) → List Char
  | [] => []
  | [w] => w
  | w :: v :: vs => w ++ ' ' :: joinCh (v :: vs)

theorem splitCh_ne_nil (l : List Char) : splitCh l ≠ [] := by
  cases l with
  | nil => simp [splitCh]
  | cons c cs =>
    rw [splitCh]
    by_cases h : c = ' '
    · simp [h]
    · simp only [h, if_false]
      cases hs : splitCh cs <;> simp

theorem splitCh_append_space (xs ys : List Char) :
    splitCh (xs ++ ' ' :: ys) = splitCh xs ++ splitCh ys := by
  induction xs with
  | nil => simp [splitCh]
  | cons c cs ih =>
    rw [List.cons_append, splitCh, splitCh]
    by_cases h : c = ' '
    · rw [if_pos h, if_pos h, ih, List.cons_append]
    · rw [if_neg h, if_neg h, ih]
      cases hs : splitCh cs with
      | nil => exact absurd hs (splitCh_ne_nil cs)
      | cons w ws => simp

theorem splitCh_no_space (l : List Char) (h : ∀ c ∈ l, c ≠ ' ') :
    splitCh l = [l] := by
  induction l with
  | nil => simp [splitCh]
  | cons c cs ih =>
    have hc : c ≠ ' ' := h c (List.mem_cons_self c cs)
    have hcs := ih (fun d hd => h d (List.mem_cons_of_mem c hd))
    simp [splitCh, hc, hcs]

theorem splitCh_mem_no_space (l : List Char) (w : List Char)
    (hw : w ∈ splitCh l) : ∀ c ∈ w, c ≠ ' ' := by
  induction l generalizing w with
  | nil =>
    simp [splitCh] at hw
    simp [hw]
  | cons c cs ih =>
    rw [splitCh] at hw
    by_cases h : c = ' '
    · simp only [h, if_true, List.mem_cons] at hw
      rcases hw with hw | hw
      · simp [hw]
      · exact ih w hw
    · simp only [h, if_false] at hw
      cases hs : splitCh cs with
      | nil => exact absurd hs (splitCh_ne_nil cs)
      | cons v vs =>
        rw [hs, List.mem_cons] at hw
        rcases hw with hw | hw
        · intro d hd
          rw [hw, List.mem_cons] at hd
          rcases hd with hd | hd
          · rw [hd]; exact h
          · exact ih v (hs ▸ List.mem_cons_self v vs) d hd
        · exact ih w (hs ▸ List.mem_cons_of_mem v hw)

theorem joinCh_append (A B : List (List Char)) (hA : A ≠ []) (hB : B ≠ []) :
    joinCh (A ++ B) = joinCh A ++ ' ' :: joinCh B := by
  induction A with
  | nil => exact absurd rfl hA
  | cons w ws ih =>
    cases ws with
    | nil =>
      cases B with
      | nil => exact absurd rfl hB
      | cons b bs => simp [joinCh]
    | cons v vs =>
      have h1 := ih (by simp)
      have h3 : (v :: vs : List (List Char)) ++ B = v :: (vs ++ B) := rfl
      rw [h3] at h1
      have h2 : (w :: v :: vs : List (List Char)) ++ B = w :: v :: (vs ++ B) := rfl
      rw [h2, joinCh, h1, joinCh]
      simp

theorem joinCh_splitCh (l : List Char) : joinCh (splitCh l) = l := by
  induction l with
  | nil => simp [splitCh, joinCh]
  | cons c cs ih =>
    rw [splitCh]
    by_cases h : c = ' '
    · rw [if_pos h]
      have h2 : joinCh ([] :: splitCh cs) = [] ++ ' ' :: joinCh (splitCh cs) := by
        cases hs : splitCh cs with
        | nil => exact absurd hs (splitCh_ne_nil cs)
        | cons w ws => rw [joinCh]
      rw [h2, ih, h]
      rfl
    · rw [if_neg h]
      cases hs : splitCh cs with
      | nil => exact absurd hs (splitCh_ne_nil cs)
      | cons w ws =>
        rw [hs] at ih
        cases ws with
        | nil =>
          rw [joinCh]
          rw [joinCh] at ih
          rw [ih]
        | cons v vs =>
          rw [joinCh, List.cons_append]
          rw [joinCh] at ih
          rw [ih]

/-- Words of each line, flattened, at the character level. -/
def flatSplit : List String → List (List Char)
  | [] => []
  | l :: ls => splitCh l.data ++ flatSplit ls

theorem flatSplit_append (A B : List String) :
    flatSplit (A ++ B) = flatSplit A ++ flatSplit B := by
  induction A with
  | nil => simp [flatSplit]
  | cons l ls ih => simp [flatSplit, ih]

theorem flatSplit_ne_nil (l : String) (ls : List String) :
    flatSplit (l :: ls) ≠ [] := by
  cases hs : splitCh l.data with
  | nil => exact absurd hs (splitCh_ne_nil l.data)
  | cons w ws => simp [flatSplit, hs]

theorem str_data_sep (cur w : String) :
    (cur ++ " " ++ w).data = cur.data ++ ' ' :: w.data := by
  cases cur with
  | mk l =>
    cases w with
    | mk m =>
      show (l ++ [' ']) ++ m = l ++ ' ' :: m
      simp

theorem str_ne_empty_of_data_ne_nil (s : String) (h : s.data ≠ []) : s ≠ "" := by
  intro he
  rw [he] at h
  exact h rfl

theorem joinCh_flatSplit (ls : List String) :
    joinCh (flatSplit ls) = (joinSp ls).data := by
  induction ls with
  | nil => rfl
  | cons l ms ih =>
    cases ms with
    | nil =>
      show joinCh (splitCh l.data ++ []) = l.data
      rw [List.append_nil, joinCh_splitCh]
    | cons m ms' =>
      show joinCh (splitCh l.data ++ flatSplit (m :: ms')) = (l ++ " " ++ joinSp (m :: ms')).data
      rw [joinCh_append _ _ (splitCh_ne_nil l.data) (flatSplit_ne_nil m ms'),
        joinCh_splitCh, ih, str_data_sep]

/-- The `testLine` of `wrapText`:
`currentLine ? currentLine + ' ' + word : word`. -/
def jsTestLine (currentLine word : String) : String :=
  if currentLine ≠ "" then currentLine ++ " " ++ word else word

/-- The word loop of `wrapText` (part_002 lines 237-251): greedy
accumulation; flush the current line before a word whose test line
measures wider than `maxWidth`, provided the current line is nonempty;
after the loop, push the final nonempty current line. `measure` is the
canvas `measureText` under the font set from the wrap call's
`fontSize`/`fontFamily`. -/
def wrapLoop (measure : String → ℚ) (maxWidth : ℚ) :
    List String → List String → String → List String
  | [], lines, currentLine =>
      if currentLine ≠ "" then lines ++ [currentLine] else lines
  | word :: ws, lines, currentLine =>
      if measure (jsTestLine currentLine word) > maxWidth ∧ currentLine ≠ "" then
        wrapLoop measure maxWidth ws (lines ++ [currentLine]) word
      else
        wrapLoop measure maxWidth ws lines (jsTestLine currentLine word)

/-- `wrapText` (part_002 lines 221-255): split on single spaces and run
the greedy loop starting from an empty line list and empty current
line. The source signature is `wrapText(text, maxWidth, fontSize,
fontFamily)`; `fontSize`/`fontFamily` only select the metrics backend,
modelled here by `measure`. -/
def wrapText (measure : String → ℚ) (text : String) (maxWidth : ℚ) :
    List String :=
  wrapLoop measure maxWidth (jsSplitSpace text) [] ""

theorem wrapLoop_invariant (measure : String → ℚ) (maxWidth : ℚ) :
    ∀ (ws : List String) (lines : List String) (cur : String),
    (∀ w ∈ ws, w ≠ "" ∧ ∀ c ∈ w.data, c ≠ ' ') →
    (∀ l ∈ lines, measure l ≤ maxWidth ∨ ∀ c ∈ l.data, c ≠ ' ') →
    (cur = "" ∨ measure cur ≤ maxWidth ∨ ∀ c ∈ cur.data, c ≠ ' ') →
    (∀ l ∈ wrapLoop measure maxWidth ws lines cur,
        measure l ≤ maxWidth ∨ ∀ c ∈ l.data, c ≠ ' ') ∧
    flatSplit (wrapLoop measure maxWidth ws lines cur)
      = (flatSplit lines ++ (if cur = "" then [] else splitCh cur.data))
          ++ ws.map String.data := by
  intro ws
  induction ws with
  | nil =>
    intro lines cur hws hlines hcur
    rw [wrapLoop]
    by_cases hc : cur = ""
    · rw [if_neg (by simp [hc])]
      constructor
      · exact hlines
      · simp [hc]
    · rw [if_pos hc]
      constructor
      · intro l hl
        rcases List.mem_append.mp hl with h | h
        · exact hlines l h
        · rw [List.mem_singleton.mp h]
          rcases hcur with h' | h'
          · exact absurd h' hc
          · exact h'
      · rw [flatSplit_append]
        simp [flatSplit, hc]
  | cons w ws ih =>
    intro lines cur hws hlines hcur
    have hw := hws w (List.mem_cons_self w ws)
    have hws' : ∀ v ∈ ws, v ≠ "" ∧ ∀ c ∈ v.data, c ≠ ' ' :=
      fun v hv => hws v (List.mem_cons_of_mem w hv)
    rw [wrapLoop]
    by_cases hc : cur = ""
    · have htest : jsTestLine cur w = w := by simp [jsTestLine, hc]
      rw [if_neg (by simp [hc]), htest]
      obtain ⟨ihP, ihF⟩ := ih lines w hws' hlines (Or.inr (Or.inr hw.2))
      refine ⟨ihP, ?_⟩
      rw [ihF, if_neg hw.1, splitCh_no_space w.data hw.2, if_pos hc]
      simp
    · have htest : jsTestLine cur w = cur ++ " " ++ w := by simp [jsTestLine, hc]
      have hcurP : measure cur ≤ maxWidth ∨ ∀ c ∈ cur.data, c ≠ ' ' := by
        rcases hcur with h' | h'
        · exact absurd h' hc
        · exact h'
      rw [htest]
      by_cases hm : measure (cur ++ " " ++ w) > maxWidth
      · rw [if_pos ⟨hm, hc⟩]
        have hlines' : ∀ l ∈ lines ++ [cur],
            measure l ≤ maxWidth ∨ ∀ c ∈ l.data, c ≠ ' ' := by
          intro l hl
          rcases List.mem_append.mp hl with h | h
          · exact hlines l h
          · rw [List.mem_singleton.mp h]
            exact hcurP
        obtain ⟨ihP, ihF⟩ := ih (lines ++ [cur]) w hws' hlines'
          (Or.inr (Or.inr hw.2))
        refine ⟨ihP, ?_⟩
        rw [ihF, if_neg hw.1, splitCh_no_space w.data hw.2, flatSplit_append,
          if_neg hc]
        simp [flatSplit]
      · rw [if_neg (by intro hand; exact hm hand.1)]
        have htne : cur ++ " " ++ w ≠ "" := by
          apply str_ne_empty_of_data_ne_nil
          rw [str_data_sep]
          intro hnil
          cases cur.data <;> simp at hnil
        obtain ⟨ihP, ihF⟩ := ih lines (cur ++ " " ++ w) hws' hlines
          (Or.inr (Or.inl (le_of_not_lt hm)))
        refine ⟨ihP, ?_⟩
        rw [ihF, if_neg htne, if_neg hc]
        have hsplit : splitCh (cur ++ " " ++ w).data
            = splitCh cur.data ++ [w.data] := by
          rw [str_data_sep, splitCh_append_space, splitCh_no_space w.data hw.2]
        rw [hsplit]
        simp

/-- C5 — wrap correctness: for any metrics backend, joining the lines
returned by `wrapText` with single spaces reproduces the input text (its
words in order), and every returned line either measures within
`maxWidth` or consists of exactly one word (an overlong single word is
placed alone, never character-split). The hypothesis says the text has
no leading/trailing/consecutive spaces, i.e. it is exactly its list of
nonempty words joined by single spaces. -/
theorem wrapText_correct (measure : String → ℚ) (text : String) (maxWidth : ℚ)
    (hw : ∀ w ∈ jsSplitSpace text, w ≠ "") :
    joinSp (wrapText measure text maxWidth) = text ∧
    ∀ line ∈ wrapText measure text maxWidth,
      measure line ≤ maxWidth ∨ (jsSplitSpace line).length = 1 := by
  have hws : ∀ w ∈ jsSplitSpace text, w ≠ "" ∧ ∀ c ∈ w.data, c ≠ ' ' := by
    intro w hwmem
    refine ⟨hw w hwmem, ?_⟩
    rcases List.mem_map.mp hwmem with ⟨w', hw', hmk⟩
    intro c hc
    rw [← hmk] at hc
    exact splitCh_mem_no_space text.data w' hw' c hc
  obtain ⟨hP, hflat⟩ := wrapLoop_invariant measure maxWidth (jsSplitSpace text)
    [] "" hws (by simp) (Or.inl rfl)
  constructor
  · have h1 : flatSplit (wrapText measure text maxWidth) = splitCh text.data := by
      rw [wrapText, hflat]
      simp only [flatSplit, if_pos rfl, List.nil_append, List.append_nil]
      rw [jsSplitSpace, List.map_map]
      have : (String.data ∘ String.mk) = id := rfl
      rw [this, List.map_id]
      simp
    have h2 : (joinSp (wrapText measure text maxWidth)).data = text.data := by
      rw [← joinCh_flatSplit, h1, joinCh_splitCh]
    exact congrArg String.mk h2
  · intro line hline
    rcases hP line hline with h | h
    · exact Or.inl h
    · right
      rw [jsSplitSpace, splitCh_no_space line.data h]
      rfl

/-- Witness for C5: wrapping `"ab cd ef"` at width 5 with the
string-length metric. -/
theorem wrapText_correct_witness :
    (∀ w ∈ jsSplitSpace "ab cd ef", w ≠ "") ∧
    joinSp (wrapText (fun s => (s.data.length : ℚ)) "ab cd ef" 5)
      = "ab cd ef" :=
  ⟨by decide,
    (wrapText_correct (fun s => (s.data.length : ℚ)) "ab cd ef" 5 (by decide)).1⟩

/-! ## Font matching (`src/utils/fontMatcher.ts`) -/

/-- `Font` (`src/types/index.ts` lines 189-199, variants omitted). -/
structure Font where
  name : String
  family : String
  path : String
  loaded : Bool
deriving DecidableEq

/-- `FontMapping` (fontMatcher.ts lines 8-12). -/
structure FontMapping where
  pdfFont : String
  systemFont : String
  fallbacks : List String
deriving DecidableEq

/-- `FONT_MAPPINGS` (fontMatcher.ts lines 17-58). -/
def FONT_MAPPINGS : List FontMapping :=
  [⟨"Helvetica", "Arial", ["Helvetica", "Arial", "sans-serif"]⟩,
   ⟨"Helvetica-Bold", "Arial", ["Helvetica", "Arial", "sans-serif"]⟩,
   ⟨"Times-Roman", "Times New Roman", ["Times", "Times New Roman", "serif"]⟩,
   ⟨"Times-Bold", "Times New Roman", ["Times", "Times New Roman", "serif"]⟩,
   ⟨"Courier", "Courier New", ["Courier", "Courier New", "monospace"]⟩,
   ⟨"Courier-Bold", "Courier New", ["Courier", "Courier New", "monospace"]⟩,
   ⟨"Symbol", "Symbol", ["Symbol", "serif"]⟩,
   ⟨"ZapfDingbats", "Zapf Dingbats", ["Zapf Dingbats", "serif"]⟩]

/-- JS `String.prototype.toLowerCase` (ASCII, adequate for font names). -/
def jsToLower (s : String) : String := String.mk (s.data.map Char.toLower)

/-- `Map.get` over entries built with `new Map(entries)`: a later entry
with the same key overwrites an earlier one, so look up the last match. -/
def jsMapGet {α : Type} (entries : List (String × α)) (k : String) :
    Option α :=
  (entries.reverse.find? (fun kv => kv.1 == k)).map (·.2)

/-- The `customFonts` map of `FontMatcher` (fontMatcher.ts line 68):
keyed by lowercased font name. -/
def customFontMap (customFonts : List Font) : List (String × Font) :=
  customFonts.map (fun f => (jsToLower f.name, f))

/-- The `fontMappings` map of `FontMatcher` (fontMatcher.ts line 69):
builtin table keyed by lowercased PDF font name. -/
def builtinFontMap : List (String × FontMapping) :=
  FONT_MAPPINGS.map (fun m => (jsToLower m.pdfFont, m))

/-- The global case-insensitive replace of fontMatcher.ts line 91: the
regex matches a hyphen followed by Bold, Italic, BoldItalic or Oblique
and every match is deleted. Scan left to right; at each hyphen, try the
alternatives in regex order (Bold first, so a hyphen-BoldItalic run is
consumed as hyphen-Bold, leaving Italic), remove the matched piece and
continue after it. `fuel` bounds the recursion; the string length
always suffices. -/
def stripStylesGo : Nat → List Char → List Char
  | 0, l => l
  | _ + 1, [] => []
  | fuel + 1, c :: cs =>
      if c = '-' ∧ (cs.take 4).map Char.toLower = ['b', 'o', 'l', 'd'] then
        stripStylesGo fuel (cs.drop 4)
      else if c = '-' ∧ (cs.take 6).map Char.toLower
          = ['i', 't', 'a', 'l', 'i', 'c'] then
        stripStylesGo fuel (cs.drop 6)
      else if c = '-' ∧ (cs.take 7).map Char.toLower
          = ['o', 'b', 'l', 'i', 'q', 'u', 'e'] then
        stripStylesGo fuel (cs.drop 7)
      else c :: stripStylesGo fuel cs

/-- The base-name computation of `matchFont` (fontMatcher.ts line 91). -/
def stripStyles (s : String) : String :=
  String.mk (stripStylesGo s.data.length s.data)

/-- `matchFont` (fontMatcher.ts lines 75-101): custom-registry lookup by
lowercased name, then builtin table, then builtin table on the
style-stripped base name, else the raw name. -/
def matchFont (customFonts : List Font) (pdfFontName : String) : String :=
  let normalizedName := jsToLower pdfFontName
  match jsMapGet (customFontMap customFonts) normalizedName with
  | some customFont =>
      if customFont.family ≠ "" then customFont.family else pdfFontName
  | none =>
    match jsMapGet builtinFontMap normalizedName with
    | some mapping => mapping.systemFont
    | none =>
      let normalizedBaseName := jsToLower (stripStyles pdfFontName)
      match jsMapGet builtinFontMap normalizedBaseName with
      | some baseMapping =>
          if baseMapping.systemFont ≠ "" then baseMapping.systemFont
          else pdfFontName
      | none => pdfFontName

/-- The claim's resolution order, taken literally: (1) EXACT custom-name
match; (2) case-insensitive builtin match; (3) builtin retry with a
TRAILING Bold/Italic/BoldItalic/Oblique suffix stripped; (4) raw name. -/
def stripTrailingStyleSuffix (name : String) : String :=
  let lower := name.data.map Char.toLower
  if List.isSuffixOf ['b', 'o', 'l', 'd', 'i', 't', 'a', 'l', 'i', 'c'] lower then
    String.mk (name.data.take (name.data.length - 10))
  else if List.isSuffixOf ['b', 'o', 'l', 'd'] lower then
    String.mk (name.data.take (name.data.length - 4))
  else if List.isSuffixOf ['i', 't', 'a', 'l', 'i', 'c'] lower then
    String.mk (name.data.take (name.data.length - 6))
  else if List.isSuffixOf ['o', 'b', 'l', 'i', 'q', 'u', 'e'] lower then
    String.mk (name.data.take (name.data.length - 7))
  else name

/-- The claim's precedence, taken literally (see
`stripTrailingStyleSuffix`). -/
def matchFontSpec (customFonts : List Font) (name : String) : String :=
  match customFonts.find? (fun f => f.name == name) with
  | some f => f.family
  | none =>
    match FONT_MAPPINGS.find? (fun m => jsToLower m.pdfFont == jsToLower name) with
    | some m => m.systemFont
    | none =>
      match FONT_MAPPINGS.find? (fun m =>
          jsToLower m.pdfFont == jsToLower (stripTrailingStyleSuffix name)) with
      | some m => m.systemFont
      | none => name

/-- C8 (corrected) — counterexample to the claim's precedence as stated:
with a custom registry containing `"Helvetica"` with declared family
`"Foo"`, the requested name `"HELVETICA"` matches no registry entry
exactly, so the claim resolves it through the builtin table to
`"Arial"`; the code's registry lookup is case-insensitive (keyed by
lowercased name) and returns `"Foo"`. -/
theorem matchFont_custom_not_exact :
    matchFont [⟨"Helvetica", "Foo", "", true⟩] "HELVETICA" = "Foo" ∧
    matchFontSpec [⟨"Helvetica", "Foo", "", true⟩] "HELVETICA" = "Arial" ∧
    ("Foo" : String) ≠ "Arial" := by
  refine ⟨by decide, by decide, by decide⟩

/-- C8 (amended) — the code's precedence: (1) case-insensitive custom
registry match (keyed by lowercased name) resolves to the entry's
declared family, falling back to the raw name only when the declared
family is empty; (2) otherwise a case-insensitive builtin-table match
resolves to that entry's system font; (3) otherwise the name with every
hyphen-prefixed Bold/Italic/Oblique token removed (case-insensitive,
all occurrences; a hyphen-BoldItalic run strips as hyphen-Bold leaving
Italic) is retried case-insensitively against the builtin table;
(4) otherwise the raw name is returned unresolved. -/
theorem matchFont_precedence (customFonts : List Font) (name : String) :
    (∀ f, jsMapGet (customFontMap customFonts) (jsToLower name) = some f →
        matchFont customFonts name
          = (if f.family ≠ "" then f.family else name)) ∧
    (jsMapGet (customFontMap customFonts) (jsToLower name) = none →
      ∀ m, jsMapGet builtinFontMap (jsToLower name) = some m →
        matchFont customFonts name = m.systemFont) ∧
    (jsMapGet (customFontMap customFonts) (jsToLower name) = none →
      jsMapGet builtinFontMap (jsToLower name) = none →
      ∀ m, jsMapGet builtinFontMap (jsToLower (stripStyles name)) = some m →
        matchFont customFonts name
          = (if m.systemFont ≠ "" then m.systemFont else name)) ∧
    (jsMapGet (customFontMap customFonts) (jsToLower name) = none →
      jsMapGet builtinFontMap (jsToLower name) = none →
      jsMapGet builtinFontMap (jsToLower (stripStyles name)) = none →
      matchFont customFonts name = name) := by
  refine ⟨?_, ?_, ?_, ?_⟩
  · intro f hf
    rw [matchFont, hf]
  · intro hc m hm
    rw [matchFont, hc, hm]
  · intro hc hb m hm
    simp only [matchFont]
    rw [hc, hb, hm]
  · intro hc hb hs
    simp only [matchFont]
    rw [hc, hb, hs]

/-- Witness for C8's amended theorem: `"Times-Roman-Bold"` misses the
custom registry and the builtin table, strips to `"Times-Roman"` and
resolves to `"Times New Roman"`. -/
theorem matchFont_precedence_witness :
    matchFont [] "Times-Roman-Bold"
      = (if ("Times New Roman" : String) ≠ "" then "Times New Roman"
          else "Times-Roman-Bold") :=
  (matchFont_precedence [] "Times-Roman-Bold").2.2.1 (by decide) (by decide)
    ⟨"Times-Roman", "Times New Roman", ["Times", "Times New Roman", "serif"]⟩
    (by decide)

/-! ## Template import validation (template saver, `src/unnamed/part_003`)
and its caller (`handleImportTemplate` in the app component,
`src/unnamed/part_004`). -/

/-- A JSON-ish JS value as seen by the validator. `undefined` is the
result of reading an absent property. -/
inductive Json where
  | undefined
  | null
  | bool (b : Bool)
  | num (q : ℚ)
  | str (s : String)
  | arr (elems : List Json)
  | obj (entries : List (String × Json))

/-- JS truthiness of a value (`NaN` has no rational counterpart). -/
def jsTruthy : Json → Bool
  | .undefined => false
  | .null => false
  | .bool b => b
  | .num q => q ≠ 0
  | .str s => s ≠ ""
  | .arr _ => true
  | .obj _ => true

/-- JS `typeof x === 'object'` (true for objects, arrays and `null`). -/
def isObjType : Json → Bool
  | .null => true
  | .arr _ => true
  | .obj _ => true
  | _ => false

/-- JS `Array.isArray`. -/
def isArr : Json → Bool
  | .arr _ => true
  | _ => false

/-- JS `key in x` for the keys the validator probes (string keys are
never own properties of arrays or primitives). -/
def hasKey : Json → String → Bool
  | .obj entries, k => (jsMapGet entries k).isSome
  | _, _ => false

/-- JS property read `x[k]`: an object yields the property value (last
duplicate wins, as after `JSON.parse`) or `undefined`; reading from
`null`/`undefined` throws a `TypeError`, modelled as `.error`; other
values yield `undefined` for these keys. -/
def getProp : Json → String → Except Unit Json
  | .obj entries, k =>
      match jsMapGet entries k with
      | some v => .ok v
      | none => .ok .undefined
  | .null, _ => .error ()
  | .undefined, _ => .error ()
  | _, _ => .ok .undefined

/-- The required-keys list of `validateTemplate` (part_003 line 153). -/
def requiredFields : List String :=
  ["id", "templateName", "pdfDimensions", "fields"]

/-- `validateTemplate` (part_003 lines 149-166): reject non-objects,
missing required keys, falsy `pdfDimensions.width` or `.height`
(evaluated separately and in that order, as in the source), and a
non-array `fields`; a `TypeError` thrown by a property read propagates
(`.error`). -/
def validateTemplate (template : Json) : Except Unit Bool :=
  if ¬ (jsTruthy template ∧ isObjType template) then .ok false
  else if ¬ (requiredFields.all (fun k => hasKey template k)) then .ok false
  else
    match getProp template "pdfDimensions" with
    | .error e => .error e
    | .ok dims =>
      match getProp dims "width" with
      | .error e => .error e
      | .ok w =>
        if ¬ jsTruthy w then .ok false
        else
          match getProp template "pdfDimensions" with
          | .error e => .error e
          | .ok dims2 =>
            match getProp dims2 "height" with
            | .error e => .error e
            | .ok h =>
              if ¬ jsTruthy h then .ok false
              else
                match getProp template "fields" with
                | .error e => .error e
                | .ok fs =>
                  if ¬ isArr fs then .ok false else .ok true

/-- The two rejection paths of `importTemplate` (part_003 lines 114-144):
a throw inside the reader callback (including a `TypeError` from
validation) rejects with the parse-failure message; a clean `false`
from validation rejects with the invalid-format message. -/
inductive ImportError where
  | parseFailure
  | invalidFormat
deriving DecidableEq

/-- JS property assignment `x[k] = v` on the parsed template (only
objects are mutated; a validated template is an object). -/
def setProp (j : Json) (k : String) (v : Json) : Json :=
  match j with
  | .obj entries =>
      if entries.any (fun kv => kv.1 == k) then
        .obj (entries.map (fun kv => if kv.1 == k then (k, v) else kv))
      else .obj (entries ++ [(k, v)])
  | other => other

/-- `importTemplate` (part_003 lines 114-144) after a successful file
read and `JSON.parse`: validate, then stamp `updatedAt` with the
current time and resolve; it performs no state mutation itself. -/
def importTemplate (now : String) (j : Json) : Except ImportError Json :=
  match validateTemplate j with
  | .error _ => .error .parseFailure
  | .ok false => .error .invalidFormat
  | .ok true => .ok (setProp j "updatedAt" (.str now))

/-- `handleImportTemplate` (part_004 lines 58-73): on resolve, the
imported template becomes the active template; on reject, only an
error notification is shown and the active template is untouched.
Returns the new active template and whether the import succeeded. -/
def handleImportTemplate (activeTemplate : Option Json) (now : String)
    (j : Json) : Option Json × Bool :=
  match importTemplate now j with
  | .ok t => (some t, true)
  | .error _ => (activeTemplate, false)

/-- The amended claim's rejection condition, stated as one unconditional
disjunction (independent of the validator's evaluation order): the
document is not a truthy object, or a required key is missing, or
reading `pdfDimensions.width`/`.height` throws or yields a falsy value,
or `fields` is not an array. -/
def rejectableDoc (j : Json) : Bool :=
  (! (jsTruthy j && isObjType j))
  || requiredFields.any (fun k => ! hasKey j k)
  || (match getProp j "pdfDimensions" with
      | .error _ => true
      | .ok dims =>
        (match getProp dims "width" with
         | .error _ => true
         | .ok w => ! jsTruthy w)
        || (match getProp dims "height" with
            | .error _ => true
            | .ok h => ! jsTruthy h))
  || (match getProp j "fields" with
      | .error _ => true
      | .ok fs => ! isArr fs)

theorem validate_ok_true_facts (j : Json)
    (hok : validateTemplate j = .ok true) :
    (jsTruthy j && isObjType j) = true ∧
    requiredFields.all (fun k => hasKey j k) = true ∧
    ∃ dims w h fs,
      getProp j "pdfDimensions" = .ok dims ∧
      getProp dims "width" = .ok w ∧ jsTruthy w = true ∧
      getProp dims "height" = .ok h ∧ jsTruthy h = true ∧
      getProp j "fields" = .ok fs ∧ isArr fs = true := by
  rw [validateTemplate] at hok
  split_ifs at hok with h1 h2
  all_goals try (simp at hok)
  split at hok
  · exact absurd hok (by simp)
  rename_i dims hdims
  split at hok
  · exact absurd hok (by simp)
  rename_i w hw
  split_ifs at hok with hwt
  · exact absurd hok (by simp)
  split at hok
  · exact absurd hok (by simp)
  rename_i dims2 hdims2
  injection hdims2 with hdd
  subst hdd
  split at hok
  · exact absurd hok (by simp)
  rename_i h hh
  split_ifs at hok with hht
  · exact absurd hok (by simp)
  split at hok
  · exact absurd hok (by simp)
  rename_i fs hfs
  split_ifs at hok with hfa
  · exact absurd hok (by simp)
  exact ⟨by simp [h1.1, h1.2], h2,
    dims, w, h, fs, hdims, hw, by simpa using hwt,
    hh, by simpa using hht, hfs, by simpa using hfa⟩

/-- C6 (amended) — import rejects, before any state mutation, every
document that is not a truthy object, is missing a required key
(`id`, `templateName`, `pdfDimensions`, `fields`), has a FALSY
`pdfDimensions.width` or `.height` (zero, missing, null, empty — but a
NEGATIVE dimension is NOT rejected), or whose `fields` is not an array;
on rejection the promise rejects (`parseFailure` when a property read
threw, `invalidFormat` otherwise) and the caller leaves the active
template unchanged. -/
theorem importTemplate_rejects (now : String) (st : Option Json) (j : Json)
    (h : rejectableDoc j = true) :
    (importTemplate now j).isOk = false ∧
    (handleImportTemplate st now j).1 = st := by
  have hv : validateTemplate j ≠ .ok true := by
    intro hok
    obtain ⟨h1, h2, dims, w, hgt, fs, hdims, hw, hwt, hh, hht, hfs, hfa⟩ :=
      validate_ok_true_facts j hok
    have hany : requiredFields.any (fun k => ! hasKey j k) = false := by
      rw [List.any_eq_false]
      intro k hk
      simp [List.all_eq_true.mp h2 k hk]
    rw [rejectableDoc] at h
    simp only [hdims, hw, hh, hfs, h1, hany, hwt, hht, hfa] at h
    simp at h
  cases hvv : validateTemplate j with
  | error e =>
    exact ⟨by simp [importTemplate, hvv, Except.isOk, Except.toBool],
      by simp [handleImportTemplate, importTemplate, hvv]⟩
  | ok b =>
    cases b with
    | false =>
      exact ⟨by simp [importTemplate, hvv, Except.isOk, Except.toBool],
        by simp [handleImportTemplate, importTemplate, hvv]⟩
    | true => exact absurd hvv hv

/-- C6 (corrected) — counterexample to the claim as stated: a document
with every required key whose dimensions are negative (`width = -5 ≤ 0`,
`height = -5`) must be rejected by the claim ("non-positive
dimensions"), but the code's falsy test (`!width || !height`) accepts
it: the import succeeds. -/
theorem importTemplate_accepts_negative_dims :
    ((-5 : ℚ) < 0) ∧
    (importTemplate "2024-01-01T00:00:00Z"
        (.obj [("id", .str "t1"), ("templateName", .str "T"),
               ("pdfDimensions",
                 .obj [("width", .num (-5)), ("height", .num (-5))]),
               ("fields", .arr [])])).isOk = true := by
  exact ⟨by decide, by decide⟩

/-- Witness for C6's amended theorem: a document missing
`pdfDimensions` (the spec's Scenario D) is rejected and the active
template survives. -/
theorem importTemplate_rejects_witness :
    rejectableDoc (.obj [("id", .str "t1"), ("templateName", .str "T"),
        ("fields", .arr [])]) = true ∧
    (importTemplate "2024-01-01T00:00:00Z"
        (.obj [("id", .str "t1"), ("templateName", .str "T"),
               ("fields", .arr [])])).isOk = false ∧
    (handleImportTemplate (some (.str "keep")) "2024-01-01T00:00:00Z"
        (.obj [("id", .str "t1"), ("templateName", .str "T"),
               ("fields", .arr [])])).1 = some (.str "keep") :=
  ⟨by decide,
    importTemplate_rejects "2024-01-01T00:00:00Z" (some (.str "keep"))
      (.obj [("id", .str "t1"), ("templateName", .str "T"),
             ("fields", .arr [])]) (by decide)⟩

/-! ## PDF generation (`src/hooks/usePDFGeneration.ts`) -/

/-- `FieldType` (`src/types/index.ts` line 5). -/
inductive FieldType where
  | text
  | number
  | date
  | dropdown
  | checkbox
  | textarea
deriving DecidableEq

/-- The source's `Field` record (`src/types/index.ts` lines 21-45),
restricted to the members `generatePDF` reads; named `FormField` here
because Mathlib already defines `Field`. `maxWidth` is optional;
`multiline` models the optional flag's truthiness. -/
structure FormField where
  id : String
  label : String
  type : FieldType
  x : ℚ
  y : ℚ
  fontSize : ℚ
  fontFamily : String
  fontWeight : String
  color : String
  maxWidth : Option ℚ
  alignment : String
  multiline : Bool
deriving DecidableEq

/-- `Template` (`src/types/index.ts` lines 47-56). -/
structure Template where
  id : String
  templateName : String
  pdfDimensions : PDFDimensions
  backgroundImage : String
  fields : List FormField
  createdAt : String
  updatedAt : String
  version : String

/-- The source's px→mm factor `0.264583` (usePDFGeneration.ts line 39). -/
def pxToMm : ℚ := 264583 / 1000000

/-- One traced drawing call on the jsPDF object: `addImage`, a bare
`pdf.text(s, x, y)`, or `pdf.text(s, x, y, {align, maxWidth})`.
Font/color setters are not draws and are not traced. -/
inductive DrawOp where
  | image (x y w h : ℚ)
  | text (s : String) (x y : ℚ)
  | textOpts (s : String) (x y : ℚ) (align : String) (maxWidth : ℚ)
deriving DecidableEq

/-- `formData[field.id]`: absent keys read as `undefined`. -/
def jsLookup (fd : List (String × Json)) (k : String) : Json :=
  match jsMapGet fd k with
  | some v => v
  | none => .undefined

/-- The skip test of the field loop (usePDFGeneration.ts line 80):
`value === undefined || value === null || value === ''`. -/
def shouldSkip : Json → Bool
  | .undefined => true
  | .null => true
  | .str s => s = ""
  | _ => false

/-- The checkbox test (usePDFGeneration.ts line 101):
`value === true || value === 'true' || value === '1'` (strict equality,
so the number 1 does not check the box). -/
def isChecked : Json → Bool
  | .bool true => true
  | .str s => s = "true" || s = "1"
  | _ => false

/-- JS `String(value)` for form values. JS formats numbers in decimal;
only integral rationals are printed faithfully here, and no theorem
depends on the number rendering. -/
def jsString : Json → String
  | .str s => s
  | .bool true => "true"
  | .bool false => "false"
  | .num q => if q.den = 1 then toString q.num else toString q
  | .null => "null"
  | .undefined => "undefined"
  | .arr _ => ""
  | .obj _ => "[object Object]"

/-- `field.alignment || 'left'`. -/
def jsAlign (a : String) : String := if a ≠ "" then a else "left"

/-- Truthiness of the optional numeric `field.maxWidth`. -/
def optTruthy : Option ℚ → Bool
  | some q => q ≠ 0
  | none => false

/-- The draw calls emitted for one field with a non-skipped value
(usePDFGeneration.ts lines 82-128): convert the field position with
`canvasToPdf` (the converter is built with `pdfDimensions` for both
spaces, line 72-75), scale to mm, then draw a checkbox mark, wrapped
multiline text, or a single `text` call with alignment and max width.
`measureW fontSize fontFamily` is the metrics backend used by
`wrapText`. -/
def fieldOps (t : Template) (measureW : ℚ → String → String → ℚ)
    (field : FormField) (v : Json) : List DrawOp :=
  let conv : CoordinateConverter := ⟨t.pdfDimensions, t.pdfDimensions, 1, 72⟩
  let pdfCoords := conv.canvasToPdf field.x field.y
  let xMm := pdfCoords.1 * pxToMm
  let yMm := pdfCoords.2 * pxToMm
  let pdfWidth := t.pdfDimensions.width * pxToMm
  let maxWidthMm :=
    if optTruthy field.maxWidth then (field.maxWidth.getD 0) * pxToMm
    else pdfWidth - xMm
  let valueStr := jsString v
  if field.type = .checkbox then
    if isChecked v then [.text "✓" xMm yMm] else []
  else if optTruthy field.maxWidth ∧ field.multiline then
    let lines := wrapText (measureW field.fontSize field.fontFamily) valueStr
      (field.maxWidth.getD 0)
    let lineHeight := field.fontSize * (6 / 5) * pxToMm
    lines.enum.map (fun p =>
      .textOpts p.2 xMm (yMm + (p.1 : ℚ) * lineHeight)
        (jsAlign field.alignment) maxWidthMm)
  else [.textOpts valueStr xMm yMm (jsAlign field.alignment) maxWidthMm]

/-- The field `forEach` of `generatePDF` (usePDFGeneration.ts lines
78-131) with its exception semantics: `i` is the running field index,
`ops`/`prog` the draws and progress reports so far. A skipped field
(undefined/null/empty value) contributes nothing, not even a progress
report. A field whose draw throws (`drawFails i` and it actually emits
a draw) propagates out of the loop carrying the state reached so far
(`.error`); otherwise the field's draws and its progress report
`40 + (i / totalFields) * 50` are appended. -/
def genFields (t : Template) (measureW : ℚ → String → String → ℚ)
    (fd : List (String × Json)) (drawFails : Nat → Bool) :
    List FormField → Nat → List DrawOp → List ℚ →
    Except (List DrawOp × List ℚ) (List DrawOp × List ℚ)
  | [], _, ops, prog => .ok (ops, prog)
  | field :: rest, i, ops, prog =>
      let v := jsLookup fd field.id
      if shouldSkip v then genFields t measureW fd drawFails rest (i + 1) ops prog
      else
        let fops := fieldOps t measureW field v
        if drawFails i ∧ fops ≠ [] then .error (ops, prog)
        else
          genFields t measureW fd drawFails rest (i + 1) (ops ++ fops)
            (prog ++ [40 + ((i : ℚ) / (t.fields.length : ℚ)) * 50])

/-- The observable outcome of one `generatePDF` call: the progress
values reported in order, and the artifact (`some` = the returned
non-null blob, modelled as its draw trace; `none` = the `null` of the
catch path). -/
structure GenResult where
  progress : List ℚ
  blob : Option (List DrawOp)
deriving DecidableEq

/-- `generatePDF` (usePDFGeneration.ts lines 21-158): report 0, create
the document, report 20, composite the background (its failure is
caught locally: `console.warn`, line 64-66), report 40, run the field
loop, report 95, encode (both `pdf.output` and the raster conversion
path are modelled by `encodeFails`), report 100 and return the blob. A
throw escaping the field loop or the encoder lands in the outer catch,
which returns `null` without further progress reports. -/
def generatePDF (t : Template) (fd : List (String × Json))
    (includeBackground : Bool) (measureW : ℚ → String → String → ℚ)
    (bgFails : Bool) (drawFails : Nat → Bool) (encodeFails : Bool) :
    GenResult :=
  let pdfWidth := t.pdfDimensions.width * pxToMm
  let pdfHeight := t.pdfDimensions.height * pxToMm
  let bgOps : List DrawOp :=
    if includeBackground ∧ t.backgroundImage ≠ "" then
      if bgFails then [] else [.image 0 0 pdfWidth pdfHeight]
    else []
  match genFields t measureW fd drawFails t.fields 0 [] [] with
  | .error st => { progress := [0, 20, 40] ++ st.2, blob := none }
  | .ok st =>
      if encodeFails then { progress := [0, 20, 40] ++ st.2 ++ [95], blob := none }
      else { progress := [0, 20, 40] ++ st.2 ++ [95, 100],
             blob := some (bgOps ++ st.1) }

theorem isChecked_iff (v : Json) :
    isChecked v = true ↔
      (v = .bool true ∨ v = .str "true" ∨ v = .str "1") := by
  cases v with
  | undefined => simp [isChecked]
  | null => simp [isChecked]
  | bool b => cases b <;> simp [isChecked]
  | num q => simp [isChecked]
  | str s => simp [isChecked]
  | arr l => simp [isChecked]
  | obj l => simp [isChecked]

/-- C7 — checkbox and skip semantics of the field loop: for a checkbox
field, a draw call (the fixed `"✓"` mark) is emitted iff the bound
value is exactly `true`, `"true"` or `"1"`; the values `false` and
`"0"` emit no draw at all; and for EVERY field type, a bound value of
`undefined`, `null` or `""` makes the loop skip the field entirely —
no draw, no progress report, no error. -/
theorem checkbox_and_skip_semantics (t : Template)
    (measureW : ℚ → String → String → ℚ) (fd : List (String × Json))
    (drawFails : Nat → Bool) (field : FormField) (v : Json) :
    (field.type = .checkbox →
      (fieldOps t measureW field v ≠ [] ↔
        (v = .bool true ∨ v = .str "true" ∨ v = .str "1"))) ∧
    (field.type = .checkbox → (v = .bool false ∨ v = .str "0") →
      fieldOps t measureW field v = []) ∧
    ((v = .undefined ∨ v = .null ∨ v = .str "") →
      jsLookup fd field.id = v →
      ∀ (rest : List FormField) (i : Nat) (ops : List DrawOp)
        (prog : List ℚ),
        genFields t measureW fd drawFails (field :: rest) i ops prog
          = genFields t measureW fd drawFails rest (i + 1) ops prog) := by
  refine ⟨?_, ?_, ?_⟩
  · intro hcb
    simp only [fieldOps, hcb, if_true]
    by_cases hch : isChecked v = true
    · simp only [hch, if_pos rfl]
      simp [(isChecked_iff v).mp hch]
    · have hf : isChecked v = false := by
        cases hcv : isChecked v
        · rfl
        · exact absurd hcv hch
      rw [if_neg (by simp [hf])]
      simp only [ne_eq, not_true_eq_false, false_iff]
      intro hdisj
      exact hch ((isChecked_iff v).mpr hdisj)
  · intro hcb hfv
    simp only [fieldOps, hcb, if_true]
    have hf : isChecked v = false := by
      rcases hfv with rfl | rfl <;> simp [isChecked]
    rw [if_neg (by simp [hf])]
  · intro hv hlook rest i ops prog
    have hskip : shouldSkip (jsLookup fd field.id) = true := by
      rw [hlook]
      rcases hv with rfl | rfl | rfl <;> simp [shouldSkip]
    simp only [genFields]
    rw [if_pos hskip]

/-- A checkbox field fixture. -/
def cbField : FormField :=
  { id := "c", label := "Agreed", type := .checkbox, x := 10, y := 20,
    fontSize := 12, fontFamily := "Helvetica", fontWeight := "normal",
    color := "#000000", maxWidth := none, alignment := "left",
    multiline := false }

/-- A plain text field fixture with the given id. -/
def textField (i : String) : FormField :=
  { id := i, label := "L", type := .text, x := 10, y := 20,
    fontSize := 12, fontFamily := "Helvetica", fontWeight := "normal",
    color := "#000000", maxWidth := none, alignment := "left",
    multiline := false }

/-- A template fixture around the given fields. -/
def mkTemplate (fs : List FormField) : Template :=
  { id := "t", templateName := "T", pdfDimensions := ⟨600, 800⟩,
    backgroundImage := "", fields := fs, createdAt := "", updatedAt := "",
    version := "1.0.0" }

/-- A string-length metrics backend fixture. -/
def lenMeasure : ℚ → String → String → ℚ := fun _ _ s => (s.data.length : ℚ)

/-- Witness for C7: a checkbox bound to `"1"` emits its mark. -/
theorem checkbox_and_skip_semantics_witness :
    fieldOps (mkTemplate [cbField]) lenMeasure cbField (.str "1") ≠ [] :=
  ((checkbox_and_skip_semantics (mkTemplate [cbField]) lenMeasure []
      (fun _ => false) cbField (.str "1")).1 rfl).mpr
    (Or.inr (Or.inr rfl))

/-- C1 (corrected) — counterexample to the claim as stated: two text
fields both bound to nonempty strings, where drawing field 0 throws;
the claim says field 1 is still drawn and a usable artifact is still
returned, but the render returns `null` (no artifact) and stops
reporting progress at 40 — the loop has no per-field catch. -/
theorem generatePDF_field_failure_aborts :
    generatePDF (mkTemplate [textField "a", textField "b"])
        [("a", .str "hello"), ("b", .str "world")] false lenMeasure false
        (fun i => i == 0) false
      = { progress := [0, 20, 40], blob := none } := by
  rfl

/-- C1 (amended) — a draw failure on any field aborts the whole render:
the exception propagates out of the field loop to the outer catch,
which returns `null`; no artifact is produced, the fields after the
failing one are never drawn, and no further progress is reported. Only
the background-image draw has a local catch. -/
theorem generatePDF_draw_failure_aborts (t : Template)
    (fd : List (String × Json)) (includeBackground : Bool)
    (measureW : ℚ → String → String → ℚ) (bgFails : Bool)
    (drawFails : Nat → Bool) (encodeFails : Bool)
    (st : List DrawOp × List ℚ)
    (h : genFields t measureW fd drawFails t.fields 0 [] [] = .error st) :
    (generatePDF t fd includeBackground measureW bgFails drawFails
        encodeFails).blob = none ∧
    (generatePDF t fd includeBackground measureW bgFails drawFails
        encodeFails).progress = [0, 20, 40] ++ st.2 := by
  simp only [generatePDF]
  rw [h]
  exact ⟨rfl, rfl⟩

/-- Witness for C1's amended theorem at the two-field input whose first
draw throws. -/
theorem generatePDF_draw_failure_aborts_witness :
    (generatePDF (mkTemplate [textField "a", textField "b"])
        [("a", .str "hello"), ("b", .str "world")] true lenMeasure false
        (fun i => i == 0) false).blob = none ∧
    (generatePDF (mkTemplate [textField "a", textField "b"])
        [("a", .str "hello"), ("b", .str "world")] true lenMeasure false
        (fun i => i == 0) false).progress
      = [0, 20, 40] ++ (([], []) : List DrawOp × List ℚ).2 :=
  generatePDF_draw_failure_aborts (mkTemplate [textField "a", textField "b"])
    [("a", .str "hello"), ("b", .str "world")] true lenMeasure false
    (fun i => i == 0) false (([], []) : List DrawOp × List ℚ) (by rfl)

/-- The accumulator carried by `genFields` regardless of whether the
loop finished or threw. -/
def exceptState {α : Type} : Except α α → α
  | .ok s => s
  | .error s => s

theorem genFields_progress (t : Template)
    (measureW : ℚ → String → String → ℚ) (fd : List (String × Json))
    (drawFails : Nat → Bool) :
    ∀ (l : List FormField) (i : Nat) (ops : List DrawOp) (prog : List ℚ),
      i + l.length ≤ t.fields.length →
      ∃ q, (exceptState (genFields t measureW fd drawFails l i ops prog)).2
            = prog ++ q ∧
        List.Pairwise (· ≤ ·) q ∧
        (∀ p ∈ q, 40 ≤ p ∧ p ≤ 90) ∧
        (∀ p ∈ q, 40 + ((i : ℚ) / (t.fields.length : ℚ)) * 50 ≤ p) := by
  intro l
  induction l with
  | nil =>
    intro i ops prog hlen
    exact ⟨[], by simp [genFields, exceptState], List.Pairwise.nil,
      by simp, by simp⟩
  | cons field rest ih =>
    intro i ops prog hlen
    rw [List.length_cons] at hlen
    have hn : 0 < t.fields.length := by omega
    have hnq : (0 : ℚ) < (t.fields.length : ℚ) := by exact_mod_cast hn
    have hstep : ((i : ℚ) / (t.fields.length : ℚ))
        ≤ (((i + 1 : ℕ) : ℚ) / (t.fields.length : ℚ)) := by
      apply (div_le_div_right hnq).mpr
      exact_mod_cast Nat.le_succ i
    simp only [genFields]
    by_cases hskip : shouldSkip (jsLookup fd field.id) = true
    · rw [if_pos hskip]
      obtain ⟨q, hq, hp, hb, hlow⟩ := ih (i + 1) ops prog (by omega)
      refine ⟨q, hq, hp, hb, ?_⟩
      intro p hp2
      have h1 := hlow p hp2
      nlinarith [hstep]
    · rw [if_neg hskip]
      by_cases hf : drawFails i ∧
          fieldOps t measureW field (jsLookup fd field.id) ≠ []
      · rw [if_pos hf]
        exact ⟨[], by simp [exceptState], List.Pairwise.nil,
          by simp, by simp⟩
      · rw [if_neg hf]
        obtain ⟨q, hq, hp, hb, hlow⟩ := ih (i + 1)
          (ops ++ fieldOps t measureW field (jsLookup fd field.id))
          (prog ++ [40 + ((i : ℚ) / (t.fields.length : ℚ)) * 50]) (by omega)
        have hPi0 : (0 : ℚ) ≤ (i : ℚ) / (t.fields.length : ℚ) :=
          div_nonneg (Nat.cast_nonneg i) (le_of_lt hnq)
        have hPi1 : (i : ℚ) / (t.fields.length : ℚ) ≤ 1 := by
          apply (div_le_one hnq).mpr
          exact_mod_cast Nat.le_of_lt (by omega)
        refine ⟨(40 + ((i : ℚ) / (t.fields.length : ℚ)) * 50) :: q, ?_, ?_, ?_, ?_⟩
        · rw [hq]
          simp
        · refine List.Pairwise.cons ?_ hp
          intro p hpq
          have h1 := hlow p hpq
          nlinarith [hstep]
        · intro p hpq
          rcases List.mem_cons.mp hpq with rfl | hpq
          · constructor <;> nlinarith
          · exact hb p hpq
        · intro p hpq
          rcases List.mem_cons.mp hpq with rfl | hpq
          · exact le_refl _
          · have h1 := hlow p hpq
            nlinarith [hstep]

theorem progress_no_100 (q tail : List ℚ) (hb : ∀ p ∈ q, 40 ≤ p ∧ p ≤ 90)
    (ht : (100 : ℚ) ∉ tail) : (100 : ℚ) ∉ [0, 20, 40] ++ q ++ tail := by
  intro hmem
  rcases List.mem_append.mp hmem with hmem | hmem
  · rcases List.mem_append.mp hmem with hmem | hmem
    · simp only [List.mem_cons, List.not_mem_nil, or_false] at hmem
      rcases hmem with h | h | h <;> norm_num at h
    · have := (hb 100 hmem).2
      norm_num at this
  · exact ht hmem

theorem progress_shape_valid (q tail : List ℚ)
    (hq : List.Pairwise (· ≤ ·) q) (hb : ∀ p ∈ q, 40 ≤ p ∧ p ≤ 90)
    (htp : List.Pairwise (· ≤ ·) tail)
    (htb : ∀ p ∈ tail, 95 ≤ p ∧ p ≤ 100) :
    ([0, 20, 40] ++ q ++ tail).head? = some 0 ∧
    List.Chain' (· ≤ ·) ([0, 20, 40] ++ q ++ tail) ∧
    (∀ p ∈ [0, 20, 40] ++ q ++ tail, 0 ≤ p ∧ p ≤ 100) := by
  refine ⟨rfl, ?_, ?_⟩
  · rw [List.chain'_iff_pairwise]
    rw [List.pairwise_append]
    refine ⟨?_, htp, ?_⟩
    · rw [List.pairwise_append]
      refine ⟨?_, hq, ?_⟩
      · norm_num [List.pairwise_cons]
      · intro a ha b hb2
        have hb3 := (hb b hb2).1
        simp at ha
        rcases ha with rfl | rfl | rfl <;> linarith
    · intro a ha b hb2
      have hb3 := (htb b hb2).1
      rcases List.mem_append.mp ha with ha | ha
      · simp at ha
        rcases ha with rfl | rfl | rfl <;> linarith
      · have := (hb a ha).2
        linarith
  · intro p hp
    rcases List.mem_append.mp hp with hp | hp
    · rcases List.mem_append.mp hp with hp | hp
      · simp at hp
        rcases hp with rfl | rfl | rfl <;> norm_num
      · have := hb p hp
        constructor <;> linarith [this.1, this.2]
    · have := htb p hp
      constructor <;> linarith [this.1, this.2]

/-- C9 — progress semantics of one render call: the reported sequence
starts at 0, is monotonically non-decreasing, stays within [0, 100],
and 100 is reported only when the call succeeds (returns a blob): a
field-loop throw or an encoding failure never reports 100. -/
theorem generatePDF_progress_valid (t : Template)
    (fd : List (String × Json)) (includeBackground : Bool)
    (measureW : ℚ → String → String → ℚ) (bgFails : Bool)
    (drawFails : Nat → Bool) (encodeFails : Bool) :
    (generatePDF t fd includeBackground measureW bgFails drawFails
        encodeFails).progress.head? = some 0 ∧
    List.Chain' (· ≤ ·)
      (generatePDF t fd includeBackground measureW bgFails drawFails
        encodeFails).progress ∧
    (∀ p ∈ (generatePDF t fd includeBackground measureW bgFails drawFails
        encodeFails).progress, 0 ≤ p ∧ p ≤ 100) ∧
    ((100 : ℚ) ∈ (generatePDF t fd includeBackground measureW bgFails
        drawFails encodeFails).progress →
      (generatePDF t fd includeBackground measureW bgFails drawFails
        encodeFails).blob.isSome = true) := by
  obtain ⟨q, hq, hp, hb, _⟩ := genFields_progress t measureW fd drawFails
    t.fields 0 [] [] (by simp)
  cases hge : genFields t measureW fd drawFails t.fields 0 [] [] with
  | error st =>
    rw [hge] at hq
    have hst : st.2 = q := by simpa [exceptState] using hq
    have hprog : (generatePDF t fd includeBackground measureW bgFails
        drawFails encodeFails).progress = [0, 20, 40] ++ q ++ [] := by
      simp [generatePDF, hge, hst]
    have hno : (100 : ℚ) ∉ [0, 20, 40] ++ q ++ [] :=
      progress_no_100 q [] hb (by simp)
    obtain ⟨h1, h2, h3⟩ := progress_shape_valid q [] hp hb
      List.Pairwise.nil (by simp)
    rw [hprog]
    exact ⟨h1, h2, h3, fun hmem => absurd hmem hno⟩
  | ok st =>
    rw [hge] at hq
    have hst : st.2 = q := by simpa [exceptState] using hq
    by_cases he : encodeFails = true
    · have hprog : (generatePDF t fd includeBackground measureW bgFails
          drawFails encodeFails).progress = [0, 20, 40] ++ q ++ [95] := by
        simp [generatePDF, hge, hst, he]
      have hno : (100 : ℚ) ∉ [0, 20, 40] ++ q ++ [95] :=
        progress_no_100 q [95] hb (by norm_num)
      obtain ⟨h1, h2, h3⟩ := progress_shape_valid q [95] hp hb
        (by simp) (by norm_num)
      rw [hprog]
      exact ⟨h1, h2, h3, fun hmem => absurd hmem hno⟩
    · have hprog : (generatePDF t fd includeBackground measureW bgFails
          drawFails encodeFails).progress = [0, 20, 40] ++ q ++ [95, 100] := by
        simp [generatePDF, hge, hst, he]
      have hblob : (generatePDF t fd includeBackground measureW bgFails
          drawFails encodeFails).blob.isSome = true := by
        simp [generatePDF, hge, he]
      obtain ⟨h1, h2, h3⟩ := progress_shape_valid q [95, 100] hp hb
        (by norm_num [List.pairwise_cons]) (by norm_num)
      rw [hprog]
      exact ⟨h1, h2, h3, fun _ => hblob⟩

/-- Witness for C9 at a concrete one-field render. -/
theorem generatePDF_progress_valid_witness :
    (generatePDF (mkTemplate [textField "a"]) [("a", .str "x")] true
        lenMeasure false (fun _ => false) false).progress.head? = some 0 ∧
    List.Chain' (· ≤ ·)
      (generatePDF (mkTemplate [textField "a"]) [("a", .str "x")] true
        lenMeasure false (fun _ => false) false).progress ∧
    (∀ p ∈ (generatePDF (mkTemplate [textField "a"]) [("a", .str "x")] true
        lenMeasure false (fun _ => false) false).progress, 0 ≤ p ∧ p ≤ 100) ∧
    ((100 : ℚ) ∈ (generatePDF (mkTemplate [textField "a"]) [("a", .str "x")]
        true lenMeasure false (fun _ => false) false).progress →
      (generatePDF (mkTemplate [textField "a"]) [("a", .str "x")] true
        lenMeasure false (fun _ => false) false).blob.isSome = true) :=
  generatePDF_progress_valid (mkTemplate [textField "a"]) [("a", .str "x")]
    true lenMeasure false (fun _ => false) false
